import Mathlib

/-!
Shallow embedding of the build-orchestration subsystem of
`src/Cython/Build/Cythonize.py` (the `cythonize` command-line script):
`find_package_base`, `cython_compile`, `run_distutils`, the `_FakePool`
fallback, and the language-level fragment of argument parsing.

External collaborators (the `cythonize` translator, `extended_iglob`
discovery, `is_package_dir`, `os.path.isdir`, the `distutils` `setup`
toolchain call, and `multiprocessing.Pool` creation) are modelled as
oracle parameters, following the spec's classification of them as
black boxes.
-/

namespace Cythonize

/-! ## File-system model used by `run_distutils`

Directory names are plain strings.  `FS.dirs` is the set (as a list) of
existing directories; `FS.cwd` is the process working directory.
`tempfile.mkdtemp(dir=base_dir)` is modelled as creating the fresh
directory name `tmpName` (a path inside `base_dir` by `mkdtemp`'s
contract); theorems that speak about the created directory assume it is
fresh, which `mkdtemp` guarantees. -/

structure FS where
  cwd  : String
  dirs : List String
deriving Repr, DecidableEq

/-- Observable file-system / toolchain events of one `run_distutils` call.
A `chdir` or `mkdtemp` event is recorded only when the operation
succeeds; `setup` records the `script_args` passed to the distutils
`setup` call. -/
inductive REv where
  | chdir   (dir : String)
  | mkdtemp (dir : String)
  | setup   (script_args : List String)
  | rmtree  (dir : String)
deriving Repr, DecidableEq

/-- Model of `run_distutils` (`Cythonize.py`, lines 100-119).

```
def run_distutils(args):
    base_dir, ext_modules = args
    script_args = ['build_ext', '-i']
    cwd = os.getcwd()
    temp_dir = None
    try:
        if base_dir:
            os.chdir(base_dir)
            temp_dir = tempfile.mkdtemp(dir=base_dir)
            script_args.extend(['--build-temp', temp_dir])
        setup(script_name='setup.py', script_args=script_args,
              ext_modules=ext_modules)
    finally:
        if base_dir:
            os.chdir(cwd)
            if temp_dir and os.path.isdir(temp_dir):
                shutil.rmtree(temp_dir)
```

`base_dir = some b` models a truthy (non-empty) base directory.
Oracles: `os.chdir(base_dir)` succeeds iff `base_dir` exists in
`s.dirs` (otherwise it raises and the body is abandoned); `mkdtemp`
succeeds, returning the fresh name `tmpName`; the external `setup`
call succeeds iff `setupOk`.  The restoring `os.chdir(cwd)` in the
`finally` block returns to the directory the process already held, so
it is modelled as always succeeding.  Result: the event trace, the
final file-system state, and the outcome (`Except.error ()` models an
escaping exception). -/
def run_distutils (base_dir : Option String) (tmpName : String)
    (setupOk : Bool) (s : FS) : List REv × FS × Except Unit Unit :=
  let cwd := s.cwd
  -- try body; `temp_dir` is its value when the finally block runs
  let body : List REv × FS × Option String × Except Unit Unit :=
    match base_dir with
    | some b =>
        if b ∈ s.dirs then
          -- os.chdir(base_dir); temp_dir = tempfile.mkdtemp(dir=base_dir)
          let s' : FS := { cwd := b, dirs := tmpName :: s.dirs }
          let args := ["build_ext", "-i", "--build-temp", tmpName]
          ([REv.chdir b, REv.mkdtemp tmpName, REv.setup args], s', some tmpName,
            if setupOk then Except.ok () else Except.error ())
        else
          -- os.chdir(base_dir) raised; setup never runs
          ([], s, none, Except.error ())
    | none =>
        ([REv.setup ["build_ext", "-i"]], s, none,
          if setupOk then Except.ok () else Except.error ())
  let (bodyEvs, s₁, temp_dir, res) := body
  -- finally block
  let final : List REv × FS :=
    match base_dir with
    | some _ =>
        let sA : FS := { s₁ with cwd := cwd }
        match temp_dir with
        | some t =>
            if t ∈ sA.dirs then
              ([REv.chdir cwd, REv.rmtree t], { sA with dirs := sA.dirs.erase t })
            else
              ([REv.chdir cwd], sA)
        | none => ([REv.chdir cwd], sA)
    | none => ([], s₁)
  (bodyEvs ++ final.1, final.2, res)

/-! ## Paths as segment lists

For the directory-walking code (`find_package_base` and the in-place
base-directory search in `cython_compile`), an absolute path is
modelled as its list of segments (`/a/b/c` is `["a", "b", "c"]`).
`os.path.dirname` drops the last segment; `os.path.split` yields
`(dropLast, last segment)`; `[]` is the file-system root, which is its
own dirname. -/

abbrev Path := List String

/-- The final path segment: `os.path.split path |>.2` (`""` at the root,
as in Python, where `os.path.split('/') = ('/', '')`). -/
def lastSeg (p : Path) : String := p.getLastD ""

/-- Model of the loop of `find_package_base` (`Cythonize.py`, lines 43-45):

```
while is_package_dir(base_dir):
    base_dir, parent = os.path.split(base_dir)
    package_path = '%s/%s' % (parent, package_path)
```

`isPkg` is the external `is_package_dir` predicate.  At the
file-system root `os.path.split` is constant (`split('/') = ('/','')`),
so the Python loop can only exit if `is_package_dir` fails at or before
the root; we model the terminating runs and return the root itself in
the degenerate case where even the root is package-like. -/
def find_package_base_loop (isPkg : Path → Bool) (base : Path) (pp : String) :
    Path × String :=
  if h : base = [] then (base, pp)
  else if isPkg base then
    find_package_base_loop isPkg base.dropLast (lastSeg base ++ "/" ++ pp)
  else (base, pp)
termination_by base.length
decreasing_by
  simp only [List.length_dropLast]
  exact Nat.sub_lt (List.length_pos.mpr h) Nat.one_pos

/-- Model of `find_package_base` (`Cythonize.py`, lines 41-46): split off
the final segment, then walk upward while the parent is a package
directory, accumulating the relative path with the fixed separator
`'/'`. -/
def find_package_base (isPkg : Path → Bool) (path : Path) : Path × String :=
  find_package_base_loop isPkg path.dropLast (lastSeg path)

/-- The package-qualified relative path: the given segments followed by
the leaf, joined in order by the fixed separator `'/'` (exactly the
string built by the repeated `'%s/%s'` formatting of
`find_package_base`). -/
def joined_rel_path (segs : List String) (leaf : String) : String :=
  segs.foldr (fun s acc => s ++ "/" ++ acc) leaf

/-! ## The dispatcher: `cython_compile` -/

/-- The base-directory search of `cython_compile` (lines 55-57):

```
base_dir = path
while not os.path.isdir(base_dir) or is_package_dir(base_dir):
    base_dir = os.path.dirname(base_dir)
```

`isdir` models `os.path.isdir`, `isPkg` models `is_package_dir`.  The
root is its own dirname, so the Python loop can only exit at or before
the root; the degenerate case where even the root fails the test (a
diverging loop in Python) is modelled by returning the root. -/
def walk_base_dir (isdir isPkg : Path → Bool) (p : Path) : Path :=
  if h : p = [] then []
  else if ¬ isdir p ∨ isPkg p then walk_base_dir isdir isPkg p.dropLast
  else p
termination_by p.length
decreasing_by
  simp only [List.length_dropLast]
  exact Nat.sub_lt (List.length_pos.mpr h) Nat.one_pos

/-- The fields of the parsed options record that the dispatcher itself
reads (`build_inplace`, `build`, `parallel`).  The remaining fields
(`keep_going`, `excludes`, `directives`, `compile_time_env`, `force`,
`quiet`, free-form options) are only forwarded to the external
`cythonize` translator, which is an oracle here, so they are not
represented.  `parse_args` guarantees `options.build` is truthy
whenever `options.build_inplace` is, but no theorem below relies on
that. -/
structure Opts where
  build_inplace : Bool
  build : Bool
  parallel : Nat
deriving Repr, DecidableEq

/-- Compile units (`ext_modules` elements) are opaque handles produced
by the external translator; we model them as numeric ids. -/
abbrev ExtModule := Nat

/-- A build job as passed to `run_distutils`: the optional base
directory and the ext modules to build. -/
abbrev Job := Option Path × List ExtModule

/-- Which kind of pool `cython_compile` holds: a real
`multiprocessing.Pool` or the `_FakePool` fallback substituted when
pool creation raises `OSError`. -/
inductive PoolKind where
  | real
  | fake
deriving Repr, DecidableEq

/-- Observable events of one `cython_compile` run.
`runDistutils j` is a synchronous `run_distutils` call executed in the
calling thread (either the direct call on the sequential branch, or a
call made by `_FakePool.map_async`, which runs its argument list
eagerly in the caller).  `mapAsync jobs` is an asynchronous,
fire-and-forget submission to a real `multiprocessing.Pool`. -/
inductive Ev where
  | poolCreate (kind : PoolKind)
  | mapAsync (jobs : List Job)
  | runDistutils (job : Job)
  | terminate
  | close
  | join
deriving Repr, DecidableEq

/-- `_FakePool.map_async` (`Cythonize.py`, lines 23-29) applies the
function to every argument eagerly in the calling thread
(`for _ in imap(func, args): pass`); an exception from any
`run_distutils` call propagates to the caller and stops the
iteration.  `runOk j` is the outcome oracle for the synchronous
`run_distutils` call on job `j` (its failure sources — `chdir`,
`mkdtemp`, `setup` — are external). -/
def fakePool_map_async (runOk : Job → Bool) :
    List Job → List Ev × Except Unit Unit
  | [] => ([], Except.ok ())
  | j :: js =>
      if runOk j then
        let (t, r) := fakePool_map_async runOk js
        (Ev.runDistutils j :: t, r)
      else ([Ev.runDistutils j], Except.error ())

/-- The base directory attached to the jobs of one discovered path
(`Cythonize.py`, lines 54-59): the upward walk result when building
in place, `None` otherwise. -/
def job_base_dir (opts : Opts) (isdir isPkg : Path → Bool) (path : Path) :
    Option Path :=
  if opts.build_inplace then some (walk_base_dir isdir isPkg path) else none

/-- The body of the `for path in all_paths` loop of `cython_compile`
(`Cythonize.py`, lines 53-89) for one discovered path.

Oracles: `cy path` is the result of the external `cythonize`
translator call for this path (`Except.error` models a fatal
translation failure); `poolOk` is whether `multiprocessing.Pool(...)`
creation succeeds (an `OSError` substitutes `_FakePool()`); `runOk`
is the outcome of a synchronous `run_distutils` call.

Returns the pool after the body, the events of the body, and its
outcome. -/
def process_path (opts : Opts) (isdir isPkg : Path → Bool) (poolOk : Bool)
    (runOk : Job → Bool) (cy : Path → Except Unit (List ExtModule))
    (pool : Option PoolKind) (path : Path) :
    Option PoolKind × List Ev × Except Unit Unit :=
  let base_dir := job_base_dir opts isdir isPkg path
  match cy path with
  | Except.error () => (pool, [], Except.error ())
  | Except.ok ext_modules =>
      -- if ext_modules and options.build:
      if ext_modules ≠ [] ∧ opts.build then
        -- if len(ext_modules) > 1 and options.parallel > 1:
        if ext_modules.length > 1 ∧ opts.parallel > 1 then
          let (pool', createEvs) :=
            match pool with
            | some k => (k, ([] : List Ev))
            | none =>
                if poolOk then (PoolKind.real, [Ev.poolCreate PoolKind.real])
                else (PoolKind.fake, [Ev.poolCreate PoolKind.fake])
          let jobs := ext_modules.map (fun ext => (base_dir, [ext]))
          match pool' with
          | PoolKind.real => (some PoolKind.real, createEvs ++ [Ev.mapAsync jobs], Except.ok ())
          | PoolKind.fake =>
              let (t, r) := fakePool_map_async runOk jobs
              (some PoolKind.fake, createEvs ++ t, r)
        else
          -- run_distutils((base_dir, ext_modules))
          let job : Job := (base_dir, ext_modules)
          (pool, [Ev.runDistutils job],
            if runOk job then Except.ok () else Except.error ())
      else (pool, [], Except.ok ())

/-- The `for path in all_paths` loop inside the `try` of
`cython_compile` (`Cythonize.py`, lines 52-89): the discovered paths
are processed in order, threading the (at most one) pool; the first
escaping exception abandons the rest of the loop.  Returns the
accumulated events, the pool at exit, and the loop outcome. -/
def compile_loop (opts : Opts) (isdir isPkg : Path → Bool) (poolOk : Bool)
    (runOk : Job → Bool) (cy : Path → Except Unit (List ExtModule)) :
    List Path → Option PoolKind → List Ev × Option PoolKind × Except Unit Unit
  | [], pool => ([], pool, Except.ok ())
  | p :: ps, pool =>
      let (pool', evs, r) := process_path opts isdir isPkg poolOk runOk cy pool p
      match r with
      | Except.error () => (evs, pool', Except.error ())
      | Except.ok () =>
          let (evs', pool'', r') := compile_loop opts isdir isPkg poolOk runOk cy ps pool'
          (evs ++ evs', pool'', r')

/-- Model of `cython_compile` (`Cythonize.py`, lines 49-97) for one
`path_pattern`.  `paths` is the (oracle) result of
`map(os.path.abspath, extended_iglob(path_pattern))`; the pool starts
as `None`; the `try/except/else` around the loop terminates the pool
on an escaping exception and re-raises, and closes then joins it on
normal completion:

```
    except:
        if pool is not None:
            pool.terminate()
        raise
    else:
        if pool is not None:
            pool.close()
            pool.join()
```
-/
def cython_compile (opts : Opts) (isdir isPkg : Path → Bool) (poolOk : Bool)
    (runOk : Job → Bool) (cy : Path → Except Unit (List ExtModule))
    (paths : List Path) : List Ev × Except Unit Unit :=
  let (evs, pool, r) := compile_loop opts isdir isPkg poolOk runOk cy paths none
  match r with
  | Except.error () =>
      match pool with
      | some _ => (evs ++ [Ev.terminate], Except.error ())
      | none => (evs, Except.error ())
  | Except.ok () =>
      match pool with
      | some _ => (evs ++ [Ev.close, Ev.join], Except.ok ())
      | none => (evs, Except.ok ())

/-- The orchestration loop of `main` (`Cythonize.py`, lines 246-247):

```
    for path in paths:
        cython_compile(path, options)
```

One `cython_compile` call per positional source pattern; `patterns`
gives, per pattern, the discovered paths for that pattern.  An
exception escaping a `cython_compile` call propagates out of `main`
and abandons the remaining patterns.  (The preceding `parse_args` and
process-wide `Options` toggles carry no build events.) -/
def main_run (opts : Opts) (isdir isPkg : Path → Bool) (poolOk : Bool)
    (runOk : Job → Bool) (cy : Path → Except Unit (List ExtModule)) :
    List (List Path) → List Ev × Except Unit Unit
  | [] => ([], Except.ok ())
  | ps :: rest =>
      let (evs, r) := cython_compile opts isdir isPkg poolOk runOk cy ps
      match r with
      | Except.error () => (evs, Except.error ())
      | Except.ok () =>
          let (evs', r') := main_run opts isdir isPkg poolOk runOk cy rest
          (evs ++ evs', r')

/-! ## Argument parsing: the language-level flags

`create_args_parser` (`Cythonize.py`, lines 165-170) registers

```
parser.add_argument('-2',    dest='language_level', action='store_const', const=2, default=None, ...)
parser.add_argument('-3',    dest='language_level', action='store_const', const=3, ...)
parser.add_argument('--3str', dest='language_level', action='store_const', const='3str', ...)
```

i.e. three independent `store_const` options writing the same
destination, with no `add_mutually_exclusive_group`.  Under argparse's
`store_const` semantics each occurrence simply overwrites
`namespace.language_level` with its constant, in command-line order,
and no error is raised for repeated or mixed occurrences.  The model
below covers argument lists built from these three flags and
positional sources; the parser's other (orthogonal) options are
omitted, and any other `-`-prefixed token is rejected as an unknown
option, as `parse_args_raw` does.  `parse_args` (lines 217-229) then
fails when no sources remain. -/

/-- The three language-level constants (`2`, `3`, `'3str'`). -/
inductive LangLevel where
  | py2
  | py3
  | py3str
deriving Repr, DecidableEq

/-- The `store_const` constant a token carries: `some l` for the three
language-level flags, `none` for every other token. -/
def langFlagConst (a : String) : Option LangLevel :=
  if a = "-2" then some LangLevel.py2
  else if a = "-3" then some LangLevel.py3
  else if a = "--3str" then some LangLevel.py3str
  else none

/-- `option.startswith('-')` (`parse_args_raw`, line 209): the token's
first character is a dash. -/
def startsDash (a : String) : Bool := a.data.head? == some '-'

/-- One argparse step over the `(language_level, sources)` namespace
fragment: a language-level flag stores its constant; any other
`-`-prefixed token is an unknown option and a fatal `parser.error`;
anything else is a positional source. -/
def parse_step (st : Option LangLevel × List String) (a : String) :
    Except String (Option LangLevel × List String) :=
  match langFlagConst a with
  | some l => Except.ok (some l, st.2)
  | none =>
      if startsDash a then Except.error ("unknown option " ++ a)
      else Except.ok (st.1, st.2 ++ [a])

/-- Left-to-right processing of the argument list, stopping at the
first fatal `parser.error`. -/
def parse_fold (st : Option LangLevel × List String) :
    List String → Except String (Option LangLevel × List String)
  | [] => Except.ok st
  | a :: rest =>
      match parse_step st a with
      | Except.ok st' => parse_fold st' rest
      | Except.error e => Except.error e

/-- The language-level / sources fragment of `parse_args`
(`Cythonize.py`, lines 203-229): process the argparse actions over the
argument list in order, then fail with `parser.error("no source files
provided")` when no positional sources were collected. -/
def parse_args_ll (args : List String) :
    Except String (Option LangLevel × List String) :=
  match parse_fold (none, []) args with
  | Except.error e => Except.error e
  | Except.ok st =>
      if st.2 = [] then Except.error "no source files provided"
      else Except.ok st

/-- Number of language-level flags in an argument list. -/
def langFlagCount (args : List String) : Nat :=
  args.countP (fun a => (langFlagConst a).isSome)

/-- The number of pool creations recorded in a trace. -/
def poolCreates (evs : List Ev) : Nat :=
  evs.countP (fun e => match e with | Ev.poolCreate _ => true | _ => false)

/-! ## Theorems about `run_distutils` -/

/-- **C2.** For every build job that switches the process working
directory (i.e. whose base directory is set), the process working
directory after `run_distutils` returns or raises equals the working
directory recorded before the job began, even when the toolchain
invocation fails. -/
theorem run_distutils_restores_cwd (b tmp : String) (setupOk : Bool) (s : FS) :
    ((run_distutils (some b) tmp setupOk s).2.1).cwd = s.cwd := by
  unfold run_distutils
  by_cases hb : b ∈ s.dirs <;> cases setupOk <;> simp [hb]

/-- **C1.** For every build job with a base directory, if the scoped
temporary build directory was created (the `mkdtemp` event occurred;
`mkdtemp` returns a fresh name), then that directory no longer exists
when `run_distutils` returns or raises — on every exit path, including
a failing `setup` call. -/
theorem run_distutils_removes_tmp (b tmp : String) (setupOk : Bool) (s : FS)
    (hfresh : tmp ∉ s.dirs)
    (hcreated : REv.mkdtemp tmp ∈ (run_distutils (some b) tmp setupOk s).1) :
    tmp ∉ ((run_distutils (some b) tmp setupOk s).2.1).dirs := by
  unfold run_distutils at hcreated ⊢
  by_cases hb : b ∈ s.dirs
  · cases setupOk <;> simp [hb, hfresh]
  · cases setupOk <;> simp [hb] at hcreated

/-- Witness for C1 at a concrete job: base directory `"b"` exists, the
toolchain invocation fails, and the fresh temporary directory
`"b/tmp0"` is gone afterwards. -/
theorem run_distutils_removes_tmp_witness :
    "b/tmp0" ∉ ((run_distutils (some "b") "b/tmp0" false ⟨"home", ["b"]⟩).2.1).dirs :=
  run_distutils_removes_tmp "b" "b/tmp0" false ⟨"home", ["b"]⟩ (by decide) (by decide)

/-- **C10.** Every `setup` invocation made by `run_distutils` carries the
in-place placement flag: its `script_args` start with
`['build_ext', '-i']`; and for a job whose base directory is `None`
the toolchain is invoked with exactly those arguments — artifacts are
placed in place even when no in-place build was requested. -/
theorem run_distutils_always_inplace (bd : Option String) (tmp : String)
    (setupOk : Bool) (s : FS) :
    (∀ args, REv.setup args ∈ (run_distutils bd tmp setupOk s).1 →
        args.take 2 = ["build_ext", "-i"]) ∧
    (bd = none →
        REv.setup ["build_ext", "-i"] ∈ (run_distutils bd tmp setupOk s).1) := by
  unfold run_distutils
  cases bd with
  | none => cases setupOk <;> simp
  | some b =>
      by_cases hb : b ∈ s.dirs <;> cases setupOk <;> simp [hb]

/-- Witness for C10 at a concrete job with no base directory: `setup`
is invoked with exactly `['build_ext', '-i']`. -/
theorem run_distutils_always_inplace_witness :
    REv.setup ["build_ext", "-i"] ∈ (run_distutils none "t" true ⟨"home", []⟩).1 :=
  (run_distutils_always_inplace none "t" true ⟨"home", []⟩).2 rfl

/-- **C8.** The base directory attached to the build jobs of a
discovered path is `None` iff the in-place option is not set; and a
`run_distutils` call with a `None` base directory performs no
working-directory switch and no temporary-directory creation: its only
event is the `setup` invocation and the file system is untouched. -/
theorem base_dir_none_iff_not_inplace (opts : Opts) (isdir isPkg : Path → Bool)
    (path : Path) (tmp : String) (setupOk : Bool) (s : FS) :
    (job_base_dir opts isdir isPkg path = none ↔ opts.build_inplace = false) ∧
    (run_distutils none tmp setupOk s).1 = [REv.setup ["build_ext", "-i"]] ∧
    (run_distutils none tmp setupOk s).2.1 = s := by
  refine ⟨?_, ?_, ?_⟩
  · unfold job_base_dir; cases h : opts.build_inplace <;> simp [h]
  · unfold run_distutils; cases setupOk <;> simp
  · unfold run_distutils; cases setupOk <;> simp

/-! ## Theorems about the dispatcher -/

theorem fakePool_map_async_events (runOk : Job → Bool) (jobs : List Job) :
    ∀ e ∈ (fakePool_map_async runOk jobs).1, ∃ j, e = Ev.runDistutils j := by
  induction jobs with
  | nil => simp [fakePool_map_async]
  | cons j js ih =>
      by_cases h : runOk j <;> simp [fakePool_map_async, h]
      · exact ⟨⟨j.1, j.2, rfl⟩, fun e he => by
          obtain ⟨⟨a, b⟩, rfl⟩ := ih e he
          exact ⟨a, b, rfl⟩⟩
      · exact ⟨j.1, j.2, rfl⟩

theorem poolCreates_fakePool (runOk : Job → Bool) (jobs : List Job) :
    poolCreates (fakePool_map_async runOk jobs).1 = 0 := by
  rw [poolCreates, List.countP_eq_zero]
  intro e he
  obtain ⟨j, rfl⟩ := fakePool_map_async_events runOk jobs e he
  simp

theorem poolCreates_append (l₁ l₂ : List Ev) :
    poolCreates (l₁ ++ l₂) = poolCreates l₁ + poolCreates l₂ :=
  List.countP_append _ _ _

theorem process_path_pool_some (opts : Opts) (isdir isPkg : Path → Bool)
    (poolOk : Bool) (runOk : Job → Bool) (cy : Path → Except Unit (List ExtModule))
    (k : PoolKind) (p : Path) :
    (process_path opts isdir isPkg poolOk runOk cy (some k) p).1 = some k ∧
    poolCreates (process_path opts isdir isPkg poolOk runOk cy (some k) p).2.1 = 0 := by
  unfold process_path
  cases hcy : cy p with
  | error e => cases e; simp [poolCreates]
  | ok ems =>
      by_cases h1 : ems ≠ [] ∧ opts.build
      · by_cases h2 : ems.length > 1 ∧ opts.parallel > 1
        · cases k <;>
            simp [h1, h2, poolCreates_append, poolCreates_fakePool, poolCreates]
          all_goals
            intro a ha
            obtain ⟨j, rfl⟩ := fakePool_map_async_events runOk _ a ha
            rfl
        · simp [h1, h2, poolCreates]
      · simp [h1, poolCreates]

theorem process_path_pool_none (opts : Opts) (isdir isPkg : Path → Bool)
    (poolOk : Bool) (runOk : Job → Bool) (cy : Path → Except Unit (List ExtModule))
    (p : Path) :
    poolCreates (process_path opts isdir isPkg poolOk runOk cy none p).2.1 =
      (if (process_path opts isdir isPkg poolOk runOk cy none p).1 = none
        then 0 else 1) := by
  unfold process_path
  cases hcy : cy p with
  | error e => cases e; simp [poolCreates]
  | ok ems =>
      by_cases h1 : ems ≠ [] ∧ opts.build
      · by_cases h2 : ems.length > 1 ∧ opts.parallel > 1
        · cases hp : poolOk <;>
            simp [h1, h2, hp, poolCreates_append, poolCreates_fakePool, poolCreates]
          all_goals
            intro a ha
            obtain ⟨j, rfl⟩ := fakePool_map_async_events runOk _ a ha
            rfl
        · simp [h1, h2, poolCreates]
      · simp [h1, poolCreates]

theorem compile_loop_pool_some (opts : Opts) (isdir isPkg : Path → Bool)
    (poolOk : Bool) (runOk : Job → Bool) (cy : Path → Except Unit (List ExtModule))
    (k : PoolKind) (paths : List Path) :
    (compile_loop opts isdir isPkg poolOk runOk cy paths (some k)).2.1 = some k ∧
    poolCreates (compile_loop opts isdir isPkg poolOk runOk cy paths (some k)).1 = 0 := by
  induction paths with
  | nil => simp [compile_loop, poolCreates]
  | cons p ps ih =>
      have hp := process_path_pool_some opts isdir isPkg poolOk runOk cy k p
      unfold compile_loop
      rcases hq : process_path opts isdir isPkg poolOk runOk cy (some k) p with
        ⟨pool', evs, r⟩
      rw [hq] at hp
      simp only at hp
      obtain ⟨hpool, hcnt⟩ := hp
      subst hpool
      cases r with
      | error e => cases e; simpa [poolCreates] using hcnt
      | ok u =>
          cases u
          simp only
          exact ⟨ih.1, by simp [poolCreates_append, hcnt, ih.2]⟩

theorem compile_loop_creates (opts : Opts) (isdir isPkg : Path → Bool)
    (poolOk : Bool) (runOk : Job → Bool) (cy : Path → Except Unit (List ExtModule))
    (paths : List Path) :
    poolCreates (compile_loop opts isdir isPkg poolOk runOk cy paths none).1 =
      (if (compile_loop opts isdir isPkg poolOk runOk cy paths none).2.1 = none
        then 0 else 1) := by
  induction paths with
  | nil => simp [compile_loop, poolCreates]
  | cons p ps ih =>
      have hc := process_path_pool_none opts isdir isPkg poolOk runOk cy p
      unfold compile_loop
      rcases hq : process_path opts isdir isPkg poolOk runOk cy none p with
        ⟨pool', evs, r⟩
      rw [hq] at hc
      simp only at hc
      cases r with
      | error e => cases e; simpa using hc
      | ok u =>
          cases u
          simp only
          cases pool' with
          | none =>
              simp only [if_pos rfl] at hc
              simp [poolCreates_append, hc, ih]
          | some k =>
              simp only [reduceCtorEq, if_neg] at hc
              have hs := compile_loop_pool_some opts isdir isPkg poolOk runOk cy k ps
              simp [poolCreates_append, hc, hs.1, hs.2]

theorem poolCreates_pos_iff (evs : List Ev) :
    0 < poolCreates evs ↔ ∃ k, Ev.poolCreate k ∈ evs := by
  rw [poolCreates, List.countP_pos_iff]
  constructor
  · rintro ⟨e, he, hp⟩
    cases e <;> simp at hp
    exact ⟨_, he⟩
  · rintro ⟨k, hk⟩
    exact ⟨Ev.poolCreate k, hk, rfl⟩

/-- **C3.** In `cython_compile`, if an exception escapes the
per-input-path loop and a worker pool had been created (a `poolCreate`
event occurred), `pool.terminate()` is the last action before the
exception propagates; if the loop completes without exception and a
pool had been created, the pool is closed and then joined before
`cython_compile` returns. -/
theorem cython_compile_pool_finalized (opts : Opts) (isdir isPkg : Path → Bool)
    (poolOk : Bool) (runOk : Job → Bool) (cy : Path → Except Unit (List ExtModule))
    (paths : List Path)
    (hcreated : ∃ k, Ev.poolCreate k ∈
        (cython_compile opts isdir isPkg poolOk runOk cy paths).1) :
    ((cython_compile opts isdir isPkg poolOk runOk cy paths).2 = Except.error () →
      ∃ pre, (cython_compile opts isdir isPkg poolOk runOk cy paths).1 =
        pre ++ [Ev.terminate]) ∧
    ((cython_compile opts isdir isPkg poolOk runOk cy paths).2 = Except.ok () →
      ∃ pre, (cython_compile opts isdir isPkg poolOk runOk cy paths).1 =
        pre ++ [Ev.close, Ev.join]) := by
  have hc := compile_loop_creates opts isdir isPkg poolOk runOk cy paths
  unfold cython_compile at hcreated ⊢
  rcases hq : compile_loop opts isdir isPkg poolOk runOk cy paths none with
    ⟨evs, pool, r⟩
  rw [hq] at hc hcreated
  simp only at hc hcreated
  cases pool with
  | none =>
      -- no pool was ever created: contradicts `hcreated`
      simp only [if_pos rfl] at hc
      exfalso
      cases r with
      | error e =>
          cases e
          simp only at hcreated
          exact absurd ((poolCreates_pos_iff evs).mpr hcreated) (by simp [hc])
      | ok u =>
          cases u
          simp only at hcreated
          exact absurd ((poolCreates_pos_iff evs).mpr hcreated) (by simp [hc])
  | some k =>
      cases r with
      | error e => cases e; exact ⟨fun _ => ⟨evs, rfl⟩, by simp⟩
      | ok u => cases u; exact ⟨by simp, fun _ => ⟨evs, rfl⟩⟩

/-- Witness for C3: a concrete run where the translator fails on the
second discovered path after the pool was created for the first; the
trace ends with `pool.terminate()`. -/
theorem cython_compile_pool_finalized_witness :
    ∃ pre, (cython_compile ⟨false, true, 2⟩ (fun _ => true) (fun _ => false) true
        (fun _ => true)
        (fun p => if p = ["a"] then Except.ok [0, 1] else Except.error ())
        [["a"], ["b"]]).1 = pre ++ [Ev.terminate] :=
  (cython_compile_pool_finalized ⟨false, true, 2⟩ (fun _ => true) (fun _ => false)
    true (fun _ => true)
    (fun p => if p = ["a"] then Except.ok [0, 1] else Except.error ())
    [["a"], ["b"]] ⟨PoolKind.real, by decide⟩).1 (by rfl)

/-- **C7, as stated (refuted).** A single `main` invocation with two
source patterns, each yielding two compile units under parallelism 2,
creates a worker pool twice: the pool variable is local to
`cython_compile`, which `main` calls once per pattern, so the pool is
not shared across the whole run. -/
theorem main_run_creates_two_pools :
    poolCreates (main_run ⟨false, true, 2⟩ (fun _ => true) (fun _ => false) true
      (fun _ => true) (fun _ => Except.ok [0, 1]) [[["a"]], [["b"]]]).1 = 2 := by
  decide

/-- **C7, amended.** Within one `cython_compile` call (one source
pattern), at most one pool is ever created: it is created lazily on
first need and shared across all paths discovered from that pattern. -/
theorem cython_compile_at_most_one_pool (opts : Opts) (isdir isPkg : Path → Bool)
    (poolOk : Bool) (runOk : Job → Bool) (cy : Path → Except Unit (List ExtModule))
    (paths : List Path) :
    poolCreates (cython_compile opts isdir isPkg poolOk runOk cy paths).1 ≤ 1 := by
  have hc := compile_loop_creates opts isdir isPkg poolOk runOk cy paths
  unfold cython_compile
  rcases hq : compile_loop opts isdir isPkg poolOk runOk cy paths none with
    ⟨evs, pool, r⟩
  rw [hq] at hc
  simp only at hc
  cases pool with
  | none =>
      rw [if_pos rfl] at hc
      cases r with
      | error e => cases e; simp only; omega
      | ok u => cases u; simp only; omega
  | some k =>
      rw [if_neg (by simp)] at hc
      have ht : poolCreates [Ev.terminate] = 0 := rfl
      have hcj : poolCreates [Ev.close, Ev.join] = 0 := rfl
      cases r with
      | error e => cases e; simp only [poolCreates_append]; omega
      | ok u => cases u; simp only [poolCreates_append]; omega

/-- **C5.** For every input path whose translation yields exactly one
compile unit, the build for that unit is invoked directly and
synchronously — a single `run_distutils` call in the calling thread,
no pool submission, the pool untouched — regardless of the configured
parallelism degree. -/
theorem single_unit_builds_synchronously (opts : Opts) (isdir isPkg : Path → Bool)
    (poolOk : Bool) (runOk : Job → Bool) (cy : Path → Except Unit (List ExtModule))
    (pool : Option PoolKind) (path : Path) (ext : ExtModule)
    (hcy : cy path = Except.ok [ext]) (hbuild : opts.build = true) :
    process_path opts isdir isPkg poolOk runOk cy pool path =
      (pool, [Ev.runDistutils (job_base_dir opts isdir isPkg path, [ext])],
        if runOk (job_base_dir opts isdir isPkg path, [ext]) then Except.ok ()
        else Except.error ()) := by
  unfold process_path
  rw [hcy]
  simp [hbuild]

/-- Witness for C5: one compile unit under parallelism degree 8 is
still built by a direct `run_distutils` call, with no pool event. -/
theorem single_unit_builds_synchronously_witness :
    process_path ⟨false, true, 8⟩ (fun _ => true) (fun _ => false) true
        (fun _ => true) (fun _ => Except.ok [7]) none ["a"] =
      (none, [Ev.runDistutils (none, [7])], Except.ok ()) :=
  (single_unit_builds_synchronously ⟨false, true, 8⟩ (fun _ => true)
    (fun _ => false) true (fun _ => true) (fun _ => Except.ok [7]) none ["a"] 7
    rfl rfl).trans rfl

/-- **C4, as stated (refuted).** After a pool-creation failure,
dispatch is *not* identical to a configured parallelism degree of at
most 1: for one path with two compile units, the `_FakePool` fallback
issues one `run_distutils` call per unit (`[0]` then `[1]`, plus a
pool lifecycle), while degree 1 issues a single `run_distutils` call
for the whole batch `[0, 1]` — so a job with a base directory switches
directory and creates a temporary directory twice instead of once. -/
theorem pool_failure_not_identical_to_degree_one :
    (cython_compile ⟨true, true, 2⟩ (fun _ => true) (fun _ => false) false
        (fun _ => true) (fun _ => Except.ok [0, 1]) [["d"]]).1 ≠
    (cython_compile ⟨true, true, 1⟩ (fun _ => true) (fun _ => false) false
        (fun _ => true) (fun _ => Except.ok [0, 1]) [["d"]]).1 := by
  decide

theorem fakePool_map_async_ok (runOk : Job → Bool) (jobs : List Job)
    (h : ∀ j, runOk j = true) : (fakePool_map_async runOk jobs).2 = Except.ok () := by
  induction jobs with
  | nil => rfl
  | cons j js ih => simp [fakePool_map_async, h j, ih]

theorem fakePool_no_mapAsync (runOk : Job → Bool) (jobs js : List Job) :
    Ev.mapAsync js ∉ (fakePool_map_async runOk jobs).1 := fun h => by
  obtain ⟨j, hj⟩ := fakePool_map_async_events runOk jobs _ h
  exact Ev.noConfusion hj

theorem fakePool_no_create (runOk : Job → Bool) (jobs : List Job) (k : PoolKind) :
    Ev.poolCreate k ∉ (fakePool_map_async runOk jobs).1 := fun h => by
  obtain ⟨j, hj⟩ := fakePool_map_async_events runOk jobs _ h
  exact Ev.noConfusion hj

theorem process_path_no_async (opts : Opts) (isdir isPkg : Path → Bool)
    (runOk : Job → Bool) (cy : Path → Except Unit (List ExtModule))
    (pool : Option PoolKind) (p : Path) (hpool : pool ≠ some PoolKind.real) :
    (process_path opts isdir isPkg false runOk cy pool p).1 ≠ some PoolKind.real ∧
    (∀ js, Ev.mapAsync js ∉
        (process_path opts isdir isPkg false runOk cy pool p).2.1) ∧
    Ev.poolCreate PoolKind.real ∉
        (process_path opts isdir isPkg false runOk cy pool p).2.1 := by
  unfold process_path
  cases hcy : cy p with
  | error e => cases e; simpa using hpool
  | ok ems =>
      by_cases h1 : ems ≠ [] ∧ opts.build
      · by_cases h2 : ems.length > 1 ∧ opts.parallel > 1
        · cases pool with
          | none => simp [h1, h2, fakePool_no_mapAsync, fakePool_no_create]
          | some k =>
              cases k with
              | real => exact absurd rfl hpool
              | fake => simp [h1, h2, fakePool_no_mapAsync, fakePool_no_create]
        · simpa [h1, h2] using hpool
      · simpa [h1] using hpool

theorem compile_loop_no_async (opts : Opts) (isdir isPkg : Path → Bool)
    (runOk : Job → Bool) (cy : Path → Except Unit (List ExtModule))
    (paths : List Path) :
    ∀ pool, pool ≠ some PoolKind.real →
    (compile_loop opts isdir isPkg false runOk cy paths pool).2.1 ≠
        some PoolKind.real ∧
    (∀ js, Ev.mapAsync js ∉
        (compile_loop opts isdir isPkg false runOk cy paths pool).1) ∧
    Ev.poolCreate PoolKind.real ∉
        (compile_loop opts isdir isPkg false runOk cy paths pool).1 := by
  induction paths with
  | nil => intro pool hp; simpa [compile_loop] using hp
  | cons p ps ih =>
      intro pool hp
      have hpp := process_path_no_async opts isdir isPkg runOk cy pool p hp
      unfold compile_loop
      rcases hq : process_path opts isdir isPkg false runOk cy pool p with
        ⟨pool', evs, r⟩
      rw [hq] at hpp
      simp only at hpp
      obtain ⟨hp', hm, hc⟩ := hpp
      cases r with
      | error e => cases e; exact ⟨hp', hm, hc⟩
      | ok u =>
          cases u
          simp only
          obtain ⟨hp'', hm', hc'⟩ := ih pool' hp'
          refine ⟨hp'', ?_, ?_⟩
          · intro js hmem
            rcases List.mem_append.mp hmem with h | h
            exacts [hm js h, hm' js h]
          · intro hmem
            rcases List.mem_append.mp hmem with h | h
            exacts [hc h, hc' h]

theorem process_path_ok (opts : Opts) (isdir isPkg : Path → Bool) (poolOk : Bool)
    (runOk : Job → Bool) (cy : Path → Except Unit (List ExtModule))
    (pool : Option PoolKind) (p : Path)
    (hcy : ∃ l, cy p = Except.ok l) (hrun : ∀ j, runOk j = true) :
    (process_path opts isdir isPkg poolOk runOk cy pool p).2.2 = Except.ok () := by
  obtain ⟨l, hl⟩ := hcy
  unfold process_path
  rw [hl]
  by_cases h1 : l ≠ [] ∧ opts.build
  · by_cases h2 : l.length > 1 ∧ opts.parallel > 1
    · rcases pool with _ | k
      · cases poolOk <;>
          simp [h1, h2, fakePool_map_async_ok runOk _ hrun]
      · cases k <;> simp [h1, h2, fakePool_map_async_ok runOk _ hrun]
    · simp [h1, h2, hrun]
  · simp [h1]

theorem compile_loop_ok (opts : Opts) (isdir isPkg : Path → Bool) (poolOk : Bool)
    (runOk : Job → Bool) (cy : Path → Except Unit (List ExtModule))
    (paths : List Path)
    (hcy : ∀ p ∈ paths, ∃ l, cy p = Except.ok l) (hrun : ∀ j, runOk j = true) :
    ∀ pool,
      (compile_loop opts isdir isPkg poolOk runOk cy paths pool).2.2 =
        Except.ok () := by
  induction paths with
  | nil => intro pool; rfl
  | cons p ps ih =>
      intro pool
      have hpo := process_path_ok opts isdir isPkg poolOk runOk cy pool p
        (hcy p (by simp)) hrun
      unfold compile_loop
      rcases hq : process_path opts isdir isPkg poolOk runOk cy pool p with
        ⟨pool', evs, r⟩
      rw [hq] at hpo
      simp only at hpo
      subst hpo
      simp only
      exact ih (fun q hq' => hcy q (by simp [hq'])) pool'

/-- **C4, amended.** Whenever pool creation raises a resource error, no
exception is surfaced for it and every build executes sequentially in
the calling thread: the whole run contains no asynchronous submission
and no real pool, and if translation and the individual builds succeed
the run returns normally.  (Dispatch is not literally identical to
degree ≤ 1: the fallback still submits one single-unit job per compile
unit, see `pool_failure_not_identical_to_degree_one`.) -/
theorem pool_failure_runs_sequentially (opts : Opts) (isdir isPkg : Path → Bool)
    (runOk : Job → Bool) (cy : Path → Except Unit (List ExtModule))
    (paths : List Path) :
    (∀ js, Ev.mapAsync js ∉
        (cython_compile opts isdir isPkg false runOk cy paths).1) ∧
    Ev.poolCreate PoolKind.real ∉
        (cython_compile opts isdir isPkg false runOk cy paths).1 ∧
    ((∀ p ∈ paths, ∃ l, cy p = Except.ok l) → (∀ j, runOk j = true) →
      (cython_compile opts isdir isPkg false runOk cy paths).2 = Except.ok ()) := by
  have hloop := compile_loop_no_async opts isdir isPkg runOk cy paths none
    (by simp)
  unfold cython_compile
  rcases hq : compile_loop opts isdir isPkg false runOk cy paths none with
    ⟨evs, pool, r⟩
  rw [hq] at hloop
  simp only at hloop
  obtain ⟨_, hm, hc⟩ := hloop
  have hok : ∀ (hcy : ∀ p ∈ paths, ∃ l, cy p = Except.ok l)
      (hrun : ∀ j, runOk j = true), r = Except.ok () := by
    intro hcy hrun
    have := compile_loop_ok opts isdir isPkg false runOk cy paths hcy hrun none
    rw [hq] at this
    simpa using this
  cases r with
  | error e =>
      cases e
      cases pool with
      | none =>
          exact ⟨hm, hc, fun hcy hrun => by simpa using hok hcy hrun⟩
      | some k =>
          refine ⟨?_, ?_, fun hcy hrun => by simpa using hok hcy hrun⟩
          · intro js hmem
            rcases List.mem_append.mp hmem with h | h
            · exact hm js h
            · simp at h
          · intro hmem
            rcases List.mem_append.mp hmem with h | h
            · exact hc h
            · simp at h
  | ok u =>
      cases u
      cases pool with
      | none => exact ⟨hm, hc, fun _ _ => rfl⟩
      | some k =>
          refine ⟨?_, ?_, fun _ _ => rfl⟩
          · intro js hmem
            rcases List.mem_append.mp hmem with h | h
            · exact hm js h
            · simp at h
          · intro hmem
            rcases List.mem_append.mp hmem with h | h
            · exact hc h
            · simp at h

/-- Witness for C4 (amended): a concrete run whose pool creation fails,
with two compile units under parallelism degree 3 — the run still
returns normally. -/
theorem pool_failure_runs_sequentially_witness :
    (cython_compile ⟨false, true, 3⟩ (fun _ => true) (fun _ => false) false
        (fun _ => true) (fun _ => Except.ok [0, 1]) [["a"]]).2 = Except.ok () :=
  (pool_failure_runs_sequentially ⟨false, true, 3⟩ (fun _ => true)
    (fun _ => false) (fun _ => true) (fun _ => Except.ok [0, 1]) [["a"]]).2.2
    (fun _ _ => ⟨[0, 1], rfl⟩) (fun _ => rfl)

/-! ## Theorems about `find_package_base` -/

theorem find_package_base_loop_chain (isPkg : Path → Bool) (pre : List String)
    (hbase : isPkg pre = false) :
    ∀ pkgs : List String,
      (∀ i, 0 < i → i ≤ pkgs.length → isPkg (pre ++ pkgs.take i) = true) →
      ∀ pp : String,
        find_package_base_loop isPkg (pre ++ pkgs) pp =
          (pre, joined_rel_path pkgs pp) := by
  intro pkgs
  induction pkgs using List.reverseRecOn with
  | nil =>
      intro _ pp
      rw [find_package_base_loop]
      by_cases hp : pre = [] <;> simp [hp, hbase, joined_rel_path]
  | append_singleton pkgs' p ih =>
      intro hpkg pp
      have hlast : isPkg (pre ++ (pkgs' ++ [p])) = true := by
        have := hpkg (pkgs'.length + 1) (Nat.succ_pos _) (by simp)
        simpa [List.take_append] using this
      have hne : pre ++ (pkgs' ++ [p]) ≠ [] := by simp
      rw [find_package_base_loop, dif_neg hne, if_pos hlast]
      have hdrop : (pre ++ (pkgs' ++ [p])).dropLast = pre ++ pkgs' := by
        rw [← List.append_assoc, List.dropLast_concat]
      have hseg : lastSeg (pre ++ (pkgs' ++ [p])) = p := by
        rw [lastSeg, ← List.append_assoc, List.getLastD_concat]
      rw [hdrop, hseg,
        ih (fun i h1 h2 => by
          have := hpkg i h1
            (by simp only [List.length_append, List.length_cons,
              List.length_nil]; omega)
          rwa [List.take_append_of_le_length (by simpa using h2)] at this)]
      simp [joined_rel_path, List.foldr_append]

/-- **C6.** For every path whose parent chain consists of exactly N
consecutive package directories above it (the N nearest ancestors are
package directories and the next one is not), `find_package_base`
returns the base directory exactly N levels above the path's direct
parent — the path stripped of its N package segments and its leaf —
and a relative path equal to the N consumed segment names followed by
the leaf name, joined in original order by the fixed separator `'/'`
(not the host file-system separator). -/
theorem find_package_base_chain (isPkg : Path → Bool) (pre pkgs : List String)
    (leaf : String)
    (hpkg : ∀ i, 0 < i → i ≤ pkgs.length → isPkg (pre ++ pkgs.take i) = true)
    (hbase : isPkg pre = false) :
    find_package_base isPkg (pre ++ pkgs ++ [leaf]) =
      (pre, joined_rel_path pkgs leaf) := by
  have hdrop : (pre ++ pkgs ++ [leaf]).dropLast = pre ++ pkgs :=
    List.dropLast_concat
  have hseg : lastSeg (pre ++ pkgs ++ [leaf]) = leaf := List.getLastD_concat _ _ _
  rw [find_package_base, hdrop, hseg]
  exact find_package_base_loop_chain isPkg pre hbase pkgs hpkg leaf

/-- Witness for C6: a chain of two package directories `a/b` inside the
non-package directory `home`; the base is `home` and the relative path
is `a/b/mod.pyx`. -/
theorem find_package_base_chain_witness :
    find_package_base (fun p => p == ["home", "a"] || p == ["home", "a", "b"])
        ["home", "a", "b", "mod.pyx"] = (["home"], "a/b/mod.pyx") :=
  (find_package_base_chain
    (fun p => p == ["home", "a"] || p == ["home", "a", "b"])
    ["home"] ["a", "b"] "mod.pyx"
    (by intro i h1 h2; simp at h2; interval_cases i <;> decide)
    (by decide)).trans rfl

/-! ## Theorems about the language-level flags -/

/-- **C9, as stated (refuted).** The argument list
`["-2", "-3", "f.pyx"]` contains two language-level flags, yet
argument parsing accepts it and returns normally (language level `3`,
the last flag): the three flags are independent `store_const` actions
on the same destination, not a mutually exclusive group, so the
combination is not rejected as a fatal configuration error. -/
theorem language_level_flags_not_exclusive :
    2 ≤ langFlagCount ["-2", "-3", "f.pyx"] ∧
    parse_args_ll ["-2", "-3", "f.pyx"] =
      Except.ok (some LangLevel.py3, ["f.pyx"]) :=
  ⟨by decide, rfl⟩

theorem langFlagConst_of_not_dash (a : String) (h : startsDash a = false) :
    langFlagConst a = none := by
  unfold langFlagConst
  split_ifs with h1 h2 h3
  · exact absurd h (by rw [h1]; decide)
  · exact absurd h (by rw [h2]; decide)
  · exact absurd h (by rw [h3]; decide)
  · rfl

theorem parse_fold_append (l l' : List String) :
    ∀ st, parse_fold st (l ++ l') =
      match parse_fold st l with
      | Except.ok st' => parse_fold st' l'
      | Except.error e => Except.error e := by
  induction l with
  | nil => intro st; rfl
  | cons a as ih =>
      intro st
      simp only [List.cons_append, parse_fold]
      cases parse_step st a with
      | ok st' => exact ih st'
      | error e => rfl

theorem parse_fold_flags (flags : List String)
    (hflags : ∀ g ∈ flags, (langFlagConst g).isSome = true) :
    ∀ acc : Option LangLevel × List String,
      parse_fold acc flags =
        Except.ok
          (if flags = [] then acc.1 else langFlagConst (flags.getLastD ""),
            acc.2) := by
  induction flags using List.reverseRecOn with
  | nil => intro acc; rfl
  | append_singleton gs g ih =>
      intro acc
      obtain ⟨l, hl⟩ := Option.isSome_iff_exists.mp (hflags g (by simp))
      have hne : gs ++ [g] ≠ [] := by simp
      rw [parse_fold_append, ih (fun x hx => hflags x (by simp [hx])),
        if_neg hne, List.getLastD_concat]
      simp only [parse_fold, parse_step, hl]

/-- **C9, amended.** The flags `-2`, `-3` and `--3str` all store into
the same `language_level` option and are not declared mutually
exclusive: an argument list combining any of them (followed by a
source) is accepted rather than rejected, and the last flag on the
command line determines the language level. -/
theorem language_level_combination_accepted (flags : List String) (src : String)
    (hflags : ∀ g ∈ flags, (langFlagConst g).isSome = true)
    (hsrc : startsDash src = false) :
    parse_args_ll (flags ++ [src]) =
      Except.ok
        (if flags = [] then none else langFlagConst (flags.getLastD ""),
          [src]) := by
  unfold parse_args_ll
  rw [parse_fold_append, parse_fold_flags flags hflags (none, [])]
  simp only [parse_fold, parse_step, langFlagConst_of_not_dash src hsrc, hsrc,
    Bool.false_eq_true, if_false, List.nil_append]
  simp

/-- Witness for C9 (amended): `-2` followed by `--3str` and a source is
accepted and yields language level `'3str'`. -/
theorem language_level_combination_accepted_witness :
    parse_args_ll ["-2", "--3str", "f.pyx"] =
      Except.ok (some LangLevel.py3str, ["f.pyx"]) :=
  (language_level_combination_accepted ["-2", "--3str"] "f.pyx"
    (by decide) (by decide)).trans rfl

end Cythonize
